import Mathlib

/-!
Verification development for the `onewaymirror` TCP reflector.

The definitions below are a shallow embedding of the Go source
(`onewaymirror.go`, logging variant): `handleConn`'s banner loop and
connect-back target derivation, `proxyBytes`'s read/write loop,
`logSession`/`logPacket`/`openLogFile`, and the `waitConn`/dispatcher
channel behaviour.  Bytes are modelled as `Nat`, socket handles as an
abstract type, and the network is an oracle: a list of read results
(each a chunk of bytes plus an optional Go error) and, per read, a list
of write results.  Machine effects (channel sends, log file writes) are
made explicit in the returned state.
-/

namespace OneWayMirror

/-- Socket handles of one session: the inbound connection `r` and the
connect-back connection `t` of `handleConn`. -/
inductive ConnH where
  | inb
  | outb
deriving DecidableEq, Repr

/-- A Go `net.Addr` as seen by `handleConn`: either a `*net.TCPAddr`
(carrying IP and port) or some other address type (for which the
type assertion `.(*net.TCPAddr)` fails). -/
inductive GoAddr where
  | tcp (ip : List Nat) (port : Nat)
  | other (desc : String)
deriving DecidableEq, Repr

/-- A `net.TCPAddr` value, as built by `handleConn` for the target. -/
structure TCPAddrV where
  ip : List Nat
  port : Nat
deriving DecidableEq, Repr

/-- Embeds the target derivation of `handleConn`:
`ta.IP = rad.IP` where `rad` is the remote address, then
`ta.Port = lad.Port` where `lad` is the local address; each step first
checks the `*net.TCPAddr` type assertion and aborts (`none`) on failure. -/
def deriveTarget (remote local_ : GoAddr) : Option TCPAddrV :=
  match remote with
  | .other _ => none
  | .tcp rip _ =>
    match local_ with
    | .other _ => none
    | .tcp _ lport => some ⟨rip, lport⟩

/-- The phases of `handleConn` in source order: log the connection
string, send the banner, build the target address, dial it, start the
session logger, start the two proxies, block on `done`, and run the
deferred closes. -/
inductive Phase where
  | logConn
  | bannerSend
  | buildTarget
  | dial
  | startLogger
  | startProxies
  | awaitDone
  | closeBoth
deriving DecidableEq, Repr

/-- Order of operations in `handleConn` (the two `defer ... Close()`
calls run last, on return). -/
def handleConnPhases : List Phase :=
  [.logConn, .bannerSend, .buildTarget, .dial, .startLogger,
   .startProxies, .awaitDone, .closeBoth]

/-- Embeds `main`'s banner configuration: `if len(*banner) > 0 { *banner += "\n" }`.
The banner is a character list; a newline is appended once, at
configuration time. -/
def bannerConfig (b : List Char) : List Char :=
  if b.length > 0 then b ++ ['\n'] else b

/-- Result of one `r.Write([]byte(banner))` call: the byte count
accepted and whether an error was returned. -/
structure BWrite where
  n : Nat
  errored : Bool
deriving DecidableEq, Repr

/-- Outcome of the banner-send loop: the loop finished (`sent`), a write
error aborted the session (`aborted`), or the oracle ran out of write
results while `s < l` (`blockedB`); each carries the characters the
peer received (the first `n` of each submitted buffer). -/
inductive BannerOut where
  | sent (received : List Char)
  | aborted (received : List Char)
  | blockedB (received : List Char)
deriving DecidableEq, Repr

/-- Prepend received characters to a banner outcome. -/
def BannerOut.push (cs : List Char) : BannerOut → BannerOut
  | .sent r => .sent (cs ++ r)
  | .aborted r => .aborted (cs ++ r)
  | .blockedB r => .blockedB (cs ++ r)

/-- Embeds the banner write loop of `handleConn`:
`s := 0; for s < l { n, err := r.Write([]byte(banner)); if err != nil
{ return }; s += n }`.  Note the full banner is submitted on every
iteration. -/
def bannerLoop (banner : List Char) (l : Nat) : Nat → List BWrite → BannerOut
  | s, [] => if s < l then .blockedB [] else .sent []
  | s, w :: rest =>
    if s < l then
      if w.errored then .aborted (banner.take w.n)
      else (bannerLoop banner l (s + w.n) rest).push (banner.take w.n)
    else .sent []

/-- Embeds the banner block of `handleConn`: the loop runs only when
`len(banner) > 0`. -/
def sendBanner (banner : List Char) (ws : List BWrite) : BannerOut :=
  if banner.length > 0 then bannerLoop banner banner.length 0 ws
  else .sent []

/-- A Go error returned by `src.Read`: `io.EOF`, a `*net.OpError`
(carrying the string `e.Error()` returns), or an error of any other
type (carrying the `%T` type name). -/
inductive GoErr where
  | eof
  | opError (msg : String)
  | otherError (tyName : String)
deriving DecidableEq, Repr

/-- Classification of a `dst.Write` error as done by `proxyBytes`:
a `net.Error` that is temporary, a `net.Error` that is not temporary,
or an error not implementing `net.Error`. -/
inductive WErr where
  | netTemp
  | netPerm
  | plain
deriving DecidableEq, Repr

/-- Result of one `dst.Write(buf[start:end])` call. -/
structure WriteRes where
  n : Nat
  err : Option WErr
deriving DecidableEq, Repr

/-- One read step of the oracle: the bytes the read placed in `buf`,
the error returned alongside them, and the write results the
destination will produce for this chunk. -/
structure ReadStep where
  chunk : List Nat
  err : Option GoErr
  writes : List WriteRes
deriving DecidableEq, Repr

/-- The `packet` struct of the source: the (whole) read buffer and the
number of valid bytes. -/
structure Packet where
  data : List Nat
  length : Nat
deriving DecidableEq, Repr

/-- Payload of a packet as written by `logPacket`: `p.data[0:p.length]`. -/
def Packet.payload (p : Packet) : List Nat :=
  p.data.take p.length

/-- Outcome of the inner write loop of `proxyBytes`: bytes added to the
`written` counter, whether `done <- dst` was sent (non-temporary
`net.Error`), and whether the oracle ran out of write results while
`start < end`. -/
structure WriteOut where
  delta : Nat
  doneDst : Bool
  blockedW : Bool
deriving DecidableEq, Repr

/-- Embeds the inner write loop of `proxyBytes`:
`start := 0; end := n; for start < end { n, err := dst.Write(buf[start:end]);
written += n; if e, ok := err.(net.Error); ok { if !e.Temporary() {
done <- dst; break } }; start += n }`.  The `break` on a non-temporary
error leaves only this inner loop. -/
def writeLoop (endn : Nat) : Nat → List WriteRes → WriteOut
  | start, [] => if start < endn then ⟨0, false, true⟩ else ⟨0, false, false⟩
  | start, w :: rest =>
    if start < endn then
      if w.err = some .netPerm then ⟨w.n, true, false⟩
      else
        let o := writeLoop endn (start + w.n) rest
        ⟨w.n + o.delta, o.doneDst, o.blockedW⟩
    else ⟨0, false, false⟩

/-- How a `proxyBytes` run ended: still in the loop when the read
oracle ran out (`running`), clean EOF, a `*net.OpError` (msg), an
error of another type (type name), or stuck in the write loop. -/
inductive Term where
  | running
  | eofEnd
  | opEnd (msg : String)
  | unknownEnd (tyName : String)
  | blockedWrite
deriving DecidableEq, Repr

/-- Log lines `proxyBytes` emits (message identity only): the
"Connection ended" line for EOF, "Connection closed" /
"Connection reset" for the two recognized `*net.OpError` suffixes,
"Unknown error of type" for other error types, and "Error writing"
for a non-temporary write error.  A `*net.OpError` matching neither
suffix logs nothing. -/
inductive PLog where
  | ended
  | closedMsg
  | resetMsg
  | unknownMsg (tyName : String)
  | writeErrMsg
deriving DecidableEq, Repr

/-- Observable state of one `proxyBytes` run. -/
structure ProxyOut where
  readCalls : Nat
  bytesRead : Nat
  bytesWritten : Nat
  allReadData : List Nat
  sent : List Packet
  doneSends : List ConnH
  logs : List PLog
  term : Term
deriving DecidableEq, Repr

/-- Go's `strings.HasSuffix`, on strings as character lists. -/
def goHasSuffix (s suffix : String) : Bool :=
  suffix.data.isSuffixOf s.data

/-- Log selection in the `*net.OpError` branch of `proxyBytes`:
`strings.HasSuffix(e.Error(), "use of closed network connection")`,
else `strings.HasSuffix(e.Error(), "connection reset by peer")`,
else no log line at all. -/
def opErrorLogs (msg : String) : List PLog :=
  if goHasSuffix msg "use of closed network connection" then [.closedMsg]
  else if goHasSuffix msg "connection reset by peer" then [.resetMsg]
  else []

/-- Embeds the outer loop of `proxyBytes src dst done buflen cstr logc`.
Each `ReadStep` is one `src.Read(buf)` call: `read += n` happens before
the error check; on `io.EOF` the proxy sends `src` on `done` and breaks;
on a `*net.OpError` it breaks without sending; on any other error it
sends `src` and breaks.  On an error-free read it forwards
`packet{buf, n}` to `logc` (when attached), then runs the inner write
loop; a non-temporary write error sends `dst` on `done` but only breaks
the inner loop, so reading continues.  `buf` keeps stale bytes past the
new chunk, as the Go buffer does. -/
def proxyBytes (src dst : ConnH) (logAttached : Bool) (buf : List Nat) :
    List ReadStep → ProxyOut
  | [] => ⟨0, 0, 0, [], [], [], [], .running⟩
  | r :: rest =>
    let n := r.chunk.length
    let buf2 := r.chunk ++ buf.drop n
    match r.err with
    | some .eof =>
      ⟨1, n, 0, r.chunk, [], [src], [.ended], .eofEnd⟩
    | some (.opError m) =>
      ⟨1, n, 0, r.chunk, [], [], opErrorLogs m, .opEnd m⟩
    | some (.otherError ty) =>
      ⟨1, n, 0, r.chunk, [], [src], [.unknownMsg ty], .unknownEnd ty⟩
    | none =>
      let w := writeLoop n 0 r.writes
      let sentHere := if logAttached then [Packet.mk buf2 n] else []
      let doneHere : List ConnH := if w.doneDst then [dst] else []
      let logsHere : List PLog := if w.doneDst then [.writeErrMsg] else []
      if w.blockedW then
        ⟨1, n, w.delta, r.chunk, sentHere, doneHere, logsHere, .blockedWrite⟩
      else
        let o := proxyBytes src dst logAttached buf2 rest
        ⟨1 + o.readCalls, n + o.bytesRead, w.delta + o.bytesWritten,
         r.chunk ++ o.allReadData, sentHere ++ o.sent,
         doneHere ++ o.doneSends, logsHere ++ o.logs, o.term⟩

/-- Whether a termination cause reports completion on the `done`
channel from the read path (EOF and unknown-type errors do;
`*net.OpError`s do not). -/
def Term.reportsDone : Term → Bool
  | .eofEnd => true
  | .unknownEnd _ => true
  | _ => false

/-- Whether the proxy direction has terminated (its loop broke). -/
def Term.terminated : Term → Bool
  | .running => false
  | _ => true

/-- Concatenation of a list of byte chunks. -/
def concatAll (ls : List (List Nat)) : List Nat :=
  ls.foldr (· ++ ·) []

/-- Embeds the blocking and closing behaviour of `handleConn` after the
dial: `done := make(chan *net.TCPConn); go proxyBytes(r, t, ...);
go proxyBytes(t, r, ...); <-done`, with `defer r.Close()` and
`defer t.Close()` pending.  `<-done` on the unbuffered channel returns
exactly when some proxy sends on `done`; `handleConn` then returns and
the two deferred closes each run once.  If neither proxy ever sends,
`handleConn` stays blocked and closes nothing. -/
def handleConnCloses (run1 run2 : ProxyOut) : List ConnH :=
  if run1.doneSends ≠ [] ∨ run2.doneSends ≠ [] then [.inb, .outb] else []

/-- The wall-clock instant `time.Now()` passed to `logPacket`:
`t.Format(time.StampNano)` (an opaque formatted string), `t.Unix()`,
and `t.Nanosecond()`. -/
structure GoTime where
  stampNano : String
  unix : Int
  nanosecond : Nat
deriving DecidableEq, Repr

/-- The replay (`.owm`) log file: appended bytes and whether
`Close()` has been called on it. -/
structure OFile where
  content : List Nat
  closed : Bool
deriving DecidableEq, Repr

/-- Bytes of a string (one byte per character; the metadata `logPacket`
formats is ASCII). -/
def strBytes (s : String) : List Nat :=
  s.data.map Char.toNat

/-- Embeds the metadata `fmt.Sprintf("\n%v\t%v.%v\t%c\t%v\t", ...)` of
`logPacket`: leading newline, `t.Format(time.StampNano)`, tab,
`t.Unix()`, dot, `t.Nanosecond()`, tab, direction rune (`i` when `d`,
else `o`), tab, `p.length`, tab. -/
def metaStr (t : GoTime) (d : Bool) (plen : Nat) : String :=
  "\n" ++ t.stampNano ++ "\t" ++ toString t.unix ++ "." ++
    toString t.nanosecond ++ "\t" ++ (if d then "i" else "o") ++ "\t" ++
    toString plen ++ "\t"

/-- One `f.Write(bs)` on the log file: fails (appending nothing here)
when the handle is already closed or the oracle says the write errors;
otherwise appends `bs`.  Returns the file and whether the write
succeeded. -/
def fileWrite (f : OFile) (bs : List Nat) (fail : Bool) : OFile × Bool :=
  if f.closed || fail then (f, false)
  else ({ f with content := f.content ++ bs }, true)

/-- Embeds `logPacket(f, p, d, t)`: returns immediately when `f` is
nil; otherwise writes the formatted metadata then `p.data[0:p.length]`,
and on either write error logs and calls `f.Close()` (the payload write
is still attempted after a failed metadata write, against the
now-closed handle). -/
def logPacket (f : Option OFile) (p : Packet) (d : Bool) (t : GoTime)
    (mfail pfail : Bool) : Option OFile :=
  match f with
  | none => none
  | some f0 =>
    let r1 := fileWrite f0 (strBytes (metaStr t d p.length)) mfail
    let f1 := if r1.2 then r1.1 else { r1.1 with closed := true }
    let r2 := fileWrite f1 p.payload pfail
    let f2 := if r2.2 then r2.1 else { r2.1 with closed := true }
    some f2

/-- Embeds `openLogFile(dir, name)`: `os.MkdirAll` failure is
`log.Fatalf` (fatal to the whole process, modelled as `Except.error`);
an `os.OpenFile(..., O_WRONLY|O_APPEND|O_CREATE|O_EXCL, 0644)` failure
(the file already exists) is logged and `nil` is returned; otherwise a
fresh empty file handle. -/
def openLogFile (mkdirFails : Bool) (fileExists : Bool) :
    Except String (Option OFile) :=
  if mkdirFails then .error "Unable to create directory"
  else if fileExists then .ok none
  else .ok (some ⟨[], false⟩)

/-- Events `logSession`'s select can observe: a packet received on the
`in` channel, the `in` channel found closed, and the same for `out`. -/
inductive LEv where
  | inPkt (p : Packet)
  | inClosed
  | outPkt (p : Packet)
  | outClosed
deriving DecidableEq, Repr

/-- Result of `logSession`'s main loop: the `logPacket` calls it made
(direction flag and packet, in order) and whether the loop's
`if iclosed && oclosed { break }` fired (false: the event oracle ran
out while a sink was still open, i.e. the loop is still blocked in
its select). -/
structure LogLoopOut where
  calls : List (Bool × Packet)
  terminated : Bool
deriving DecidableEq, Repr

/-- Prepend a `logPacket` call to a loop result. -/
def LogLoopOut.push (c : Bool × Packet) (o : LogLoopOut) : LogLoopOut :=
  ⟨c :: o.calls, o.terminated⟩

/-- Embeds the loop of `logSession(in, out, dir, prefix)`:
`for { if iclosed && oclosed { break }; select { case p, ok := <-in:
if !ok { iclosed = true; continue }; logPacket(olog, p, true, t);
case p, ok := <-out: ... logPacket(olog, p, false, t) } }`. -/
def logSessionLoop (ic oc : Bool) : List LEv → LogLoopOut
  | [] => ⟨[], ic && oc⟩
  | e :: rest =>
    if ic && oc then ⟨[], true⟩
    else
      match e with
      | .inPkt p => (logSessionLoop ic oc rest).push (true, p)
      | .inClosed => logSessionLoop true oc rest
      | .outPkt p => (logSessionLoop ic oc rest).push (false, p)
      | .outClosed => logSessionLoop ic true rest

/-- Run the `logPacket` calls of a `logSession` loop against the file
handle, pairing each call with a timestamp from the oracle (write
failures not exercised here). -/
def applyCalls (f : Option OFile) : List (Bool × Packet) → List GoTime →
    Option OFile
  | [], _ => f
  | c :: cs, ts =>
    applyCalls (logPacket f c.2 c.1 (ts.headD ⟨"", 0, 0⟩) false false)
      cs ts.tail

/-- Embeds one whole `logSession` activation over a delivered event
sequence: the opened file (`olog`), the loop's `logPacket` calls, and
the deferred `olog.Close()`, which runs exactly when the loop breaks
and the function returns. -/
def logSessionRun (f0 : Option OFile) (evs : List LEv) (ts : List GoTime) :
    Option OFile × Bool :=
  let lo := logSessionLoop false false evs
  let ff := applyCalls f0 lo.calls ts
  (if lo.terminated then ff.map (fun g => { g with closed := true }) else ff,
   lo.terminated)

/-- Packets of the `logPacket` calls tagged inbound (`d = true`). -/
def iPackets (cs : List (Bool × Packet)) : List Packet :=
  cs.filterMap (fun c => if c.1 then some c.2 else none)

/-- Packets of the `logPacket` calls tagged outbound (`d = false`). -/
def oPackets (cs : List (Bool × Packet)) : List Packet :=
  cs.filterMap (fun c => if c.1 then none else some c.2)

/-- Interleave two event streams: the schedule picks, at each step
with both streams nonempty, whether the select takes from the first;
when one stream is exhausted the other is delivered in order. -/
def mergeEvs : List Bool → List LEv → List LEv → List LEv
  | [], xs, ys => xs ++ ys
  | _ :: _, [], ys => ys
  | _ :: _, x :: xs, [] => x :: xs
  | b :: bs, x :: xs, y :: ys =>
    if b then x :: mergeEvs bs xs (y :: ys)
    else y :: mergeEvs bs (x :: xs) ys

/-- Event stream offered on the `in` sink by a session: the packets
the inbound-direction proxy forwarded, then the handler's
`defer close(in)`. -/
def inEvents (r : ProxyOut) : List LEv :=
  r.sent.map LEv.inPkt ++ [LEv.inClosed]

/-- Event stream offered on the `out` sink by a session: the packets
the connect-back-direction proxy forwarded, then `defer close(out)`. -/
def outEvents (r : ProxyOut) : List LEv :=
  r.sent.map LEv.outPkt ++ [LEv.outClosed]

/-- Actions available when `waitConn` dies: it logs, closes its
delivery channel, then sends on `dead`, in that order. -/
inductive WaitConnAct where
  | deliver (c : ConnH)
  | closeChan
  | signalDead
deriving DecidableEq, Repr

/-- Embeds `waitConn(l, ch, dead)` as the action trace it performs for
a given accept oracle (`some c`: `AcceptTCP` returned a connection;
`none`: it returned an error): each accepted connection is sent on
`ch`; on the first error the goroutine does `close(ch); dead <- 1;
return`. -/
def waitConnTrace : List (Option ConnH) → List WaitConnAct
  | [] => []
  | some c :: rest => .deliver c :: waitConnTrace rest
  | none :: _ => [.closeChan, .signalDead]

/-- State of one delivery channel as the dispatcher's select sees it:
open with an optional ready sender, or closed. -/
inductive ChanView where
  | openCh (pending : Option ConnH)
  | closedCh
deriving DecidableEq, Repr

/-- Embeds `waitDead(n, in, out)`: `out` becomes ready only after `n`
values have been received on `in`. -/
def waitDeadReady (n signals : Nat) : Bool :=
  decide (n ≤ signals)

/-- State of `main`'s accept loop select. -/
structure DispState where
  ch4 : ChanView
  ch6 : ChanView
  listeners : Nat
  deadSignals : Nat
deriving DecidableEq, Repr

/-- Actions `main`'s select can take: spawn `go handleConn(c, ...)`
with the received value `c`, or `log.Fatalf` on `<-allDead`. -/
inductive DispatchAct where
  | spawn (c : Option ConnH)
  | fatalAllDead
deriving DecidableEq, Repr

/-- The ready cases of `main`'s
`select { case c := <-ch4: go handleConn(c, ...); case c := <-ch6: ...;
case <-allDead: log.Fatalf }` in a given state.  Per Go semantics a
receive from a closed channel is always ready and yields the zero
value (`nil`, modelled `none`); a receive from an open unbuffered
channel is ready only when a sender is; `<-allDead` is ready once
`waitDead` has counted every listener's death signal. -/
def selectReady (s : DispState) : List DispatchAct :=
  (match s.ch4 with
   | .closedCh => [.spawn none]
   | .openCh (some c) => [.spawn (some c)]
   | .openCh none => []) ++
  (match s.ch6 with
   | .closedCh => [.spawn none]
   | .openCh (some c) => [.spawn (some c)]
   | .openCh none => []) ++
  (if waitDeadReady s.listeners s.deadSignals then [.fatalAllDead] else [])

/-- The dispatcher state after exactly one of two listeners has died:
its channel was closed by `waitConn` and one death signal was
consumed by `waitDead`; the other listener is alive with no pending
connection. -/
def afterOneDeath : DispState :=
  { ch4 := .closedCh, ch6 := .openCh none, listeners := 2, deadSignals := 1 }

/-- C1: for every inbound connection whose remote and local endpoint
addresses are TCP addresses, `handleConn`'s connect-back target has the
inbound connection's remote IP and the local (listening) port — and so
never the remote port when the two ports differ. -/
theorem handleConn_target_from_remote_ip_local_port
    (rip lip : List Nat) (rport lport : Nat)
    (hne : lport ≠ rport) :
    ∃ ta, deriveTarget (GoAddr.tcp rip rport) (GoAddr.tcp lip lport) = some ta ∧
      ta.ip = rip ∧ ta.port = lport ∧ ta.port ≠ rport :=
  ⟨⟨rip, lport⟩, rfl, rfl, rfl, hne⟩

/-- Witness for C1 at a concrete pair of endpoint addresses. -/
theorem handleConn_target_from_remote_ip_local_port_inst :
    deriveTarget (GoAddr.tcp [10, 0, 0, 9] 49152) (GoAddr.tcp [10, 0, 0, 2] 23) =
      some ⟨[10, 0, 0, 9], 23⟩ := by
  obtain ⟨⟨ip, port⟩, h1, h2, h3, _⟩ :=
    handleConn_target_from_remote_ip_local_port [10, 0, 0, 9] [10, 0, 0, 2]
      49152 23 (by decide)
  simp only at h2 h3
  rw [h2, h3] at h1
  exact h1

/-- C9: a log-directory creation failure is fatal to the process, while
an already-existing replay file only makes `openLogFile` return `nil`,
after which `logPacket` drops every packet without any error. -/
theorem openLogFile_failure_modes (ex : Bool) (p : Packet) (d : Bool)
    (t : GoTime) (mfail pfail : Bool) :
    openLogFile true ex = Except.error "Unable to create directory" ∧
    openLogFile false true = Except.ok none ∧
    logPacket none p d t mfail pfail = none :=
  ⟨rfl, rfl, rfl⟩

/-- C10: a dying `waitConn` closes its delivery channel before sending
its death signal, and with one of two listeners dead the dispatcher's
select has a ready case that receives the closed channel's zero value
and spawns `handleConn` on a `nil` connection, while `<-allDead` is not
yet ready. -/
theorem closed_channel_yields_nil_handler :
    waitConnTrace [none] = [.closeChan, .signalDead] ∧
    DispatchAct.spawn none ∈ selectReady afterOneDeath ∧
    DispatchAct.fatalAllDead ∉ selectReady afterOneDeath := by
  decide

/-- C4: at a concrete trace whose first write reports a non-temporary
network error, `proxyBytes` sends the destination handle on `done` but
its `break` leaves only the inner write loop: the run performs a second
read and keeps going. -/
theorem proxy_reads_continue_after_write_error :
    proxyBytes ConnH.inb ConnH.outb false [0]
      [⟨[97], none, [⟨0, some WErr.netPerm⟩]⟩, ⟨[98], none, [⟨1, none⟩]⟩] =
      ⟨2, 2, 1, [97, 98], [], [ConnH.outb], [PLog.writeErrMsg], .running⟩ := by
  decide

/-- Counterexample to C2: configured banner text `"ab"`; the first
write accepts one byte without error, the retry resends the whole
banner, and the peer receives `"aab\n"`, not the configured text plus
one newline. -/
theorem banner_resend_on_partial_write :
    sendBanner (bannerConfig ['a', 'b']) [⟨1, false⟩, ⟨3, false⟩] =
      .sent ['a', 'a', 'b', '\n'] ∧
    ['a', 'a', 'b', '\n'] ≠ ['a', 'b'] ++ ['\n'] := by
  decide

/-- Counterexample to C3: a `*net.OpError` whose text ends with neither
recognized suffix still terminates the direction without any send on
the completion channel (and without any log line), where the claim
says any error other than the two suffix classes reports completion. -/
theorem opError_unrecognized_suffix_unreported :
    proxyBytes ConnH.inb ConnH.outb false [0]
      [⟨[], some (GoErr.opError "read tcp: connection timed out"), []⟩] =
      ⟨1, 0, 0, [], [], [], [], .opEnd "read tcp: connection timed out"⟩ ∧
    goHasSuffix "read tcp: connection timed out"
      "use of closed network connection" = false ∧
    goHasSuffix "read tcp: connection timed out"
      "connection reset by peer" = false := by
  decide

/-- Counterexample to C5: a direction that terminates through the
reset-classified read path sends nothing on `done`, so although a
proxy direction has terminated, `handleConn` is still blocked and
neither socket is closed. -/
theorem proxy_silent_end_leaves_sockets_open :
    (proxyBytes ConnH.inb ConnH.outb true [0]
      [⟨[], some (GoErr.opError "read tcp: connection reset by peer"), []⟩]).term.terminated
      = true ∧
    handleConnCloses
      (proxyBytes ConnH.inb ConnH.outb true [0]
        [⟨[], some (GoErr.opError "read tcp: connection reset by peer"), []⟩])
      (proxyBytes ConnH.outb ConnH.inb true [0] []) = [] := by
  decide

/-- Counterexample to C6: a read that returns two bytes together with
`io.EOF` adds them to the bytes read from the inbound connection, but
`proxyBytes` breaks before forwarding them to the logger, so the
concatenated `i`-payloads miss them. -/
theorem replay_drops_bytes_read_with_error :
    concatAll ((iPackets ((logSessionLoop false false
        (mergeEvs []
          (inEvents (proxyBytes ConnH.inb ConnH.outb true [0, 0, 0]
            [⟨[97, 98, 99], none, [⟨3, none⟩]⟩, ⟨[100, 101], some .eof, []⟩]))
          (outEvents (proxyBytes ConnH.outb ConnH.inb true [0, 0, 0] [])))).calls)).map
        Packet.payload) = [97, 98, 99] ∧
    (proxyBytes ConnH.inb ConnH.outb true [0, 0, 0]
      [⟨[97, 98, 99], none, [⟨3, none⟩]⟩, ⟨[100, 101], some .eof, []⟩]).allReadData
      = [97, 98, 99, 100, 101] ∧
    ([97, 98, 99] : List Nat) ≠ [97, 98, 99, 100, 101] := by
  decide

/-- The banner loop exits as soon as `s < l` fails, whatever write
results remain. -/
theorem bannerLoop_done (banner : List Char) (l s : Nat) (ws : List BWrite)
    (h : ¬ s < l) : bannerLoop banner l s ws = .sent [] := by
  cases ws <;> simp [bannerLoop, h]

/-- C2 (amended): provided each successful write is complete — as the
`io.Writer` contract guarantees for `*net.TCPConn` — the banner block
sends exactly the configured text followed by the one newline appended
at configuration time, and it runs before the dial in `handleConn`. -/
theorem banner_exact_bytes_full_writes (b : List Char) (w : BWrite)
    (ws : List BWrite) (hb : b ≠ []) (hw : w.errored = false)
    (hn : w.n = (bannerConfig b).length) :
    bannerConfig b = b ++ ['\n'] ∧
    sendBanner (bannerConfig b) (w :: ws) = .sent (b ++ ['\n']) ∧
    handleConnPhases.indexOf .bannerSend < handleConnPhases.indexOf .dial := by
  have hlen : (bannerConfig b).length > 0 := by
    simp [bannerConfig, List.length_pos.mpr hb]
  refine ⟨?_, ?_, by decide⟩
  · simp [bannerConfig, List.length_pos.mpr hb]
  · have hcfg : bannerConfig b = b ++ ['\n'] := by
      simp [bannerConfig, List.length_pos.mpr hb]
    simp only [sendBanner, if_pos hlen, bannerLoop, if_pos hlen, hw,
      Bool.false_eq_true, if_neg (by simp : ¬ False), hn]
    rw [bannerLoop_done _ _ _ ws (by omega)]
    simp [BannerOut.push, List.take_length, hcfg]

/-- Witness for C2 (amended): configured text `"hi"`, one complete
write. -/
theorem banner_exact_bytes_full_writes_inst :
    sendBanner (bannerConfig ['h', 'i']) [⟨3, false⟩] =
      .sent ['h', 'i', '\n'] :=
  (banner_exact_bytes_full_writes ['h', 'i'] ⟨3, false⟩ []
    (by decide) rfl (by decide)).2.1

/-- C5 (amended): as soon as either proxy direction reports completion
on the shared channel, `handleConn` unblocks and its deferred closes
run, closing each of the two sockets exactly once; a direction that
terminates without reporting does not by itself trigger the closes. -/
theorem session_closes_once_on_first_report (r1 r2 : ProxyOut)
    (h : r1.doneSends ≠ [] ∨ r2.doneSends ≠ []) :
    (handleConnCloses r1 r2).count ConnH.inb = 1 ∧
    (handleConnCloses r1 r2).count ConnH.outb = 1 := by
  unfold handleConnCloses
  rw [if_pos h]
  exact ⟨by decide, by decide⟩

/-- Witness for C5 (amended): the inbound direction ends with a clean
EOF, which reports completion. -/
theorem session_closes_once_on_first_report_inst :
    (handleConnCloses
      (proxyBytes ConnH.inb ConnH.outb false [] [⟨[], some .eof, []⟩])
      (proxyBytes ConnH.outb ConnH.inb false [] [])).count ConnH.inb = 1 ∧
    (handleConnCloses
      (proxyBytes ConnH.inb ConnH.outb false [] [⟨[], some .eof, []⟩])
      (proxyBytes ConnH.outb ConnH.inb false [] [])).count ConnH.outb = 1 :=
  session_closes_once_on_first_report _ _ (Or.inl (by decide))

/-- Byte images distribute over string concatenation. -/
theorem strBytes_append (a b : String) :
    strBytes (a ++ b) = strBytes a ++ strBytes b := by
  cases a with
  | mk la =>
    cases b with
    | mk lb => simp [strBytes, String.append]

/-- C7: with the file open and both writes succeeding, `logPacket`
appends exactly one record: newline, human timestamp, tab, Unix
seconds, dot, nanoseconds, tab, direction rune, tab, decimal payload
length, tab, then the first `p.length` payload bytes verbatim; the
file stays open. -/
theorem replay_record_layout (f : OFile) (p : Packet) (d : Bool) (t : GoTime)
    (hopen : f.closed = false) (_hlen : p.length ≤ p.data.length) :
    logPacket (some f) p d t false false =
      some ⟨f.content ++
        (strBytes "\n" ++ strBytes t.stampNano ++ strBytes "\t" ++
         strBytes (toString t.unix) ++ strBytes "." ++
         strBytes (toString t.nanosecond) ++ strBytes "\t" ++
         strBytes (if d then "i" else "o") ++ strBytes "\t" ++
         strBytes (toString p.length) ++ strBytes "\t") ++
        p.data.take p.length, false⟩ := by
  simp [logPacket, fileWrite, hopen, metaStr, strBytes_append,
    Packet.payload, List.append_assoc]

/-- Witness for C7 at a concrete record. -/
theorem replay_record_layout_inst :
    logPacket (some ⟨[], false⟩) ⟨[1, 2, 3], 2⟩ true
      ⟨"Apr 28 12:00:00.000000001", 1398686400, 1⟩ false false =
      some ⟨([] : List Nat) ++
        (strBytes "\n" ++ strBytes "Apr 28 12:00:00.000000001" ++ strBytes "\t" ++
         strBytes (toString (1398686400 : Int)) ++ strBytes "." ++
         strBytes (toString (1 : Nat)) ++ strBytes "\t" ++
         strBytes (if true then "i" else "o") ++ strBytes "\t" ++
         strBytes (toString (2 : Nat)) ++ strBytes "\t") ++
        [1, 2, 3].take 2, false⟩ :=
  replay_record_layout ⟨[], false⟩ ⟨[1, 2, 3], 2⟩ true
    ⟨"Apr 28 12:00:00.000000001", 1398686400, 1⟩ rfl (by decide)

/-- C3 (amended): the source handle is sent on the completion channel
exactly when the read loop ends in clean EOF or an error that is not a
`*net.OpError`; every `*net.OpError`, whatever its textual suffix,
terminates the direction without reporting (the suffix only selects
the log line). -/
theorem proxy_src_report_iff_eof_or_unknown (src dst : ConnH) (la : Bool)
    (steps : List ReadStep) (buf : List Nat) (h : src ≠ dst) :
    src ∈ (proxyBytes src dst la buf steps).doneSends ↔
      (proxyBytes src dst la buf steps).term.reportsDone = true := by
  induction steps generalizing buf with
  | nil => simp [proxyBytes, Term.reportsDone]
  | cons r rest ih =>
    cases he : r.err with
    | none =>
      cases hb : (writeLoop r.chunk.length 0 r.writes).blockedW with
      | true =>
        cases hd : (writeLoop r.chunk.length 0 r.writes).doneDst <;>
          simp [proxyBytes, he, hb, hd, Term.reportsDone, h]
      | false =>
        cases hd : (writeLoop r.chunk.length 0 r.writes).doneDst <;>
          simp [proxyBytes, he, hb, hd, Term.reportsDone, h,
            ih (r.chunk ++ buf.drop r.chunk.length)]
    | some ge =>
      cases ge <;> simp [proxyBytes, he, Term.reportsDone]

/-- Witness for C3 (amended): a clean EOF reports the source handle. -/
theorem proxy_src_report_iff_eof_or_unknown_inst :
    ConnH.inb ∈ (proxyBytes ConnH.inb ConnH.outb false []
      [⟨[], some GoErr.eof, []⟩]).doneSends :=
  (proxy_src_report_iff_eof_or_unknown ConnH.inb ConnH.outb false
    [⟨[], some GoErr.eof, []⟩] [] (by decide)).mpr (by decide)

/-- The `logSession` loop's break fires exactly when each sink is
already flagged closed or its end-of-stream event is delivered. -/
theorem logSessionLoop_term (evs : List LEv) : ∀ ic oc : Bool,
    (logSessionLoop ic oc evs).terminated = true ↔
      ((ic = true ∨ LEv.inClosed ∈ evs) ∧ (oc = true ∨ LEv.outClosed ∈ evs)) := by
  induction evs with
  | nil => intro ic oc; cases ic <;> cases oc <;> simp [logSessionLoop]
  | cons e rest ih =>
    intro ic oc
    cases ic <;> cases oc <;> cases e <;>
      simp [logSessionLoop, LogLoopOut.push, ih, List.mem_cons]

/-- C8: `logSession` terminates exactly once both sinks have been
explicitly closed (an end-of-stream per sink), and on termination the
deferred `olog.Close()` leaves the replay file closed; with a sink
still open it never returns. -/
theorem logSession_term_iff_both_closed (evs : List LEv) (f : OFile)
    (ts : List GoTime) :
    ((logSessionRun (some f) evs ts).2 = true ↔
      (LEv.inClosed ∈ evs ∧ LEv.outClosed ∈ evs)) ∧
    (∀ g, (logSessionRun (some f) evs ts).2 = true →
      (logSessionRun (some f) evs ts).1 = some g → g.closed = true) := by
  constructor
  · have := logSessionLoop_term evs false false
    simpa [logSessionRun] using this
  · intro g ht hg
    simp only [logSessionRun] at ht hg
    rw [if_pos ht] at hg
    obtain ⟨g0, -, hmap⟩ := Option.map_eq_some'.mp hg
    rw [← hmap]

/-- Witness for C8: with both end-of-stream events delivered, the
logger terminates. -/
theorem logSession_term_iff_both_closed_inst :
    (logSessionRun (some ⟨[], false⟩) [LEv.inClosed, LEv.outClosed] []).2 = true :=
  (logSession_term_iff_both_closed [LEv.inClosed, LEv.outClosed]
    ⟨[], false⟩ []).1.mpr ⟨by decide, by decide⟩

/-- Chunk concatenation, empty case. -/
theorem concatAll_nil : concatAll [] = [] := rfl

/-- Chunk concatenation, cons case. -/
theorem concatAll_cons (x : List Nat) (xs : List (List Nat)) :
    concatAll (x :: xs) = x ++ concatAll xs := rfl

/-- The payloads of the packets a proxy direction forwards to its log
sink concatenate to exactly its read-data, provided every read that
returned an error returned no bytes alongside it. -/
theorem proxy_payloads_eq_read_data (src dst : ConnH) (steps : List ReadStep)
    (buf : List Nat) (h : ∀ r ∈ steps, r.err ≠ none → r.chunk = []) :
    concatAll ((proxyBytes src dst true buf steps).sent.map Packet.payload) =
      (proxyBytes src dst true buf steps).allReadData := by
  induction steps generalizing buf with
  | nil => simp [proxyBytes, concatAll]
  | cons r rest ih =>
    have hr := h r (List.mem_cons_self r rest)
    have hrest : ∀ x ∈ rest, x.err ≠ none → x.chunk = [] :=
      fun x hx => h x (List.mem_cons_of_mem r hx)
    cases he : r.err with
    | some ge =>
      have hc : r.chunk = [] := hr (by simp [he])
      cases ge <;> simp [proxyBytes, he, hc, concatAll]
    | none =>
      cases hb : (writeLoop r.chunk.length 0 r.writes).blockedW <;>
        simp [proxyBytes, he, hb, concatAll_cons, concatAll_nil,
          Packet.payload, List.take_left, ih _ hrest]

/-- With both flags set, the `logSession` loop breaks at once. -/
theorem logSessionLoop_closed_closed (evs : List LEv) :
    logSessionLoop true true evs = ⟨[], true⟩ := by
  cases evs <;> simp [logSessionLoop]

/-- While the `in` flag is down, each delivered `in`-packet becomes
one `logPacket` call tagged inbound. -/
theorem logSessionLoop_inPkts (ps : List Packet) (oc : Bool) (rest : List LEv) :
    logSessionLoop false oc (ps.map LEv.inPkt ++ rest) =
      ⟨ps.map (fun p => (true, p)) ++ (logSessionLoop false oc rest).calls,
       (logSessionLoop false oc rest).terminated⟩ := by
  induction ps with
  | nil => simp
  | cons p ps ih => simp [logSessionLoop, LogLoopOut.push, ih]

/-- While the `out` flag is down, each delivered `out`-packet becomes
one `logPacket` call tagged outbound. -/
theorem logSessionLoop_outPkts (qs : List Packet) (ic : Bool) (rest : List LEv) :
    logSessionLoop ic false (qs.map LEv.outPkt ++ rest) =
      ⟨qs.map (fun q => (false, q)) ++ (logSessionLoop ic false rest).calls,
       (logSessionLoop ic false rest).terminated⟩ := by
  induction qs with
  | nil => simp
  | cons q qs ih => cases ic <;> simp [logSessionLoop, LogLoopOut.push, ih]

/-- Consuming the `in` end-of-stream event raises the `in` flag. -/
theorem logSessionLoop_inClosed (oc : Bool) (rest : List LEv) :
    logSessionLoop false oc (LEv.inClosed :: rest) =
      logSessionLoop true oc rest := by
  simp [logSessionLoop]

/-- Consuming the `out` end-of-stream event raises the `out` flag. -/
theorem logSessionLoop_outClosed (ic : Bool) (rest : List LEv) :
    logSessionLoop ic false (LEv.outClosed :: rest) =
      logSessionLoop ic true rest := by
  cases ic <;> simp [logSessionLoop]

/-- Calls of a loop run fed only the `in` side (the `out` flag already
up). -/
theorem logSessionLoop_in_only (ps : List Packet) :
    logSessionLoop false true (ps.map LEv.inPkt ++ [LEv.inClosed]) =
      ⟨ps.map (fun p => (true, p)), true⟩ := by
  rw [logSessionLoop_inPkts, logSessionLoop_inClosed,
    logSessionLoop_closed_closed]
  simp

/-- Calls of a loop run fed only the `out` side (the `in` flag already
up). -/
theorem logSessionLoop_out_only (qs : List Packet) :
    logSessionLoop true false (qs.map LEv.outPkt ++ [LEv.outClosed]) =
      ⟨qs.map (fun q => (false, q)), true⟩ := by
  rw [logSessionLoop_outPkts, logSessionLoop_outClosed,
    logSessionLoop_closed_closed]
  simp

/-- Calls of a loop run fed the `in` side in full, then the `out`
side. -/
theorem logSessionLoop_in_then_out (ps qs : List Packet) :
    logSessionLoop false false
        (ps.map LEv.inPkt ++ (LEv.inClosed ::
          (qs.map LEv.outPkt ++ [LEv.outClosed]))) =
      ⟨ps.map (fun p => (true, p)) ++ qs.map (fun q => (false, q)), true⟩ := by
  rw [logSessionLoop_inPkts, logSessionLoop_inClosed,
    logSessionLoop_out_only]

/-- Interleaving with an exhausted first stream delivers the second. -/
theorem mergeEvs_nil_left (sch : List Bool) (ys : List LEv) :
    mergeEvs sch [] ys = ys := by
  cases sch <;> simp [mergeEvs]

/-- Interleaving with an exhausted second stream delivers the first. -/
theorem mergeEvs_nil_right (sch : List Bool) (xs : List LEv) :
    mergeEvs sch xs [] = xs := by
  cases sch <;> cases xs <;> simp [mergeEvs]

/-- A `true` schedule entry takes from the first stream. -/
theorem mergeEvs_cons_true (bs : List Bool) (x : LEv) (xs ys : List LEv)
    (h : ys ≠ []) :
    mergeEvs (true :: bs) (x :: xs) ys = x :: mergeEvs bs xs ys := by
  cases ys with
  | nil => exact absurd rfl h
  | cons y ys => simp [mergeEvs]

/-- A `false` schedule entry takes from the second stream. -/
theorem mergeEvs_cons_false (bs : List Bool) (xs : List LEv) (y : LEv)
    (ys : List LEv) (h : xs ≠ []) :
    mergeEvs (false :: bs) xs (y :: ys) = y :: mergeEvs bs xs ys := by
  cases xs with
  | nil => exact absurd rfl h
  | cons x xs => simp [mergeEvs]

/-- Projection of a call list onto the inbound tag, cons case. -/
theorem iPackets_cons (c : Bool × Packet) (cs : List (Bool × Packet)) :
    iPackets (c :: cs) = if c.1 then c.2 :: iPackets cs else iPackets cs := by
  cases hc : c.1 <;> simp [iPackets, hc]

/-- Projection of a call list onto the outbound tag, cons case. -/
theorem oPackets_cons (c : Bool × Packet) (cs : List (Bool × Packet)) :
    oPackets (c :: cs) = if c.1 then oPackets cs else c.2 :: oPackets cs := by
  cases hc : c.1 <;> simp [oPackets, hc]

/-- The inbound projection of concatenated call lists. -/
theorem iPackets_append (xs ys : List (Bool × Packet)) :
    iPackets (xs ++ ys) = iPackets xs ++ iPackets ys := by
  simp [iPackets, List.filterMap_append]

/-- The outbound projection of concatenated call lists. -/
theorem oPackets_append (xs ys : List (Bool × Packet)) :
    oPackets (xs ++ ys) = oPackets xs ++ oPackets ys := by
  simp [oPackets, List.filterMap_append]

/-- The inbound projection of inbound-tagged calls is the packet list. -/
theorem iPackets_map_true (ps : List Packet) :
    iPackets (ps.map (fun p => (true, p))) = ps := by
  induction ps with
  | nil => simp [iPackets]
  | cons p ps ih => simp [iPackets] at ih ⊢; exact ih

/-- The inbound projection of outbound-tagged calls is empty. -/
theorem iPackets_map_false (qs : List Packet) :
    iPackets (qs.map (fun q => (false, q))) = [] := by
  induction qs with
  | nil => simp [iPackets]
  | cons q qs ih => simp [iPackets] at ih ⊢

/-- The outbound projection of inbound-tagged calls is empty. -/
theorem oPackets_map_true (ps : List Packet) :
    oPackets (ps.map (fun p => (true, p))) = [] := by
  induction ps with
  | nil => simp [oPackets]
  | cons p ps ih => simp [oPackets] at ih ⊢

/-- The outbound projection of outbound-tagged calls is the packet
list. -/
theorem oPackets_map_false (qs : List Packet) :
    oPackets (qs.map (fun q => (false, q))) = qs := by
  induction qs with
  | nil => simp [oPackets]
  | cons q qs ih => simp [oPackets] at ih ⊢; exact ih

/-- Inbound projection of no calls. -/
theorem iPackets_nil : iPackets [] = [] := rfl

/-- Outbound projection of no calls. -/
theorem oPackets_nil : oPackets [] = [] := rfl

/-- Event stream of a sink that may already be closed (`none`) or still
offers its packets followed by its end-of-stream, `in` side. -/
def inSideEvs : Option (List Packet) → List LEv
  | none => []
  | some ps => ps.map LEv.inPkt ++ [LEv.inClosed]

/-- Event stream of a sink that may already be closed (`none`) or still
offers its packets followed by its end-of-stream, `out` side. -/
def outSideEvs : Option (List Packet) → List LEv
  | none => []
  | some qs => qs.map LEv.outPkt ++ [LEv.outClosed]

/-- For every interleaving of the two sinks' packet streams (each
followed by its end-of-stream), the `logSession` loop terminates and
its calls project, per direction tag and in order, to exactly the
packets that direction's sink delivered. -/
theorem merged_calls (sch : List Bool) :
    ∀ a b : Option (List Packet),
    iPackets ((logSessionLoop a.isNone b.isNone
        (mergeEvs sch (inSideEvs a) (outSideEvs b))).calls) = a.getD [] ∧
    oPackets ((logSessionLoop a.isNone b.isNone
        (mergeEvs sch (inSideEvs a) (outSideEvs b))).calls) = b.getD [] ∧
    (logSessionLoop a.isNone b.isNone
        (mergeEvs sch (inSideEvs a) (outSideEvs b))).terminated = true := by
  induction sch with
  | nil =>
    intro a b
    cases a <;> cases b <;>
      simp [inSideEvs, outSideEvs, mergeEvs, logSessionLoop_closed_closed,
        logSessionLoop_in_only, logSessionLoop_out_only,
        logSessionLoop_in_then_out, iPackets_nil, oPackets_nil,
        iPackets_append, oPackets_append, iPackets_map_true,
        iPackets_map_false, oPackets_map_true, oPackets_map_false,
        List.append_assoc]
  | cons c cs ih =>
    intro a b
    cases a with
    | none =>
      cases b <;>
        simp [inSideEvs, outSideEvs, mergeEvs_nil_left,
          logSessionLoop_closed_closed, logSessionLoop_out_only,
          iPackets_nil, oPackets_nil, iPackets_map_false, oPackets_map_false]
    | some ps =>
      cases b with
      | none =>
        simp [inSideEvs, outSideEvs, mergeEvs_nil_right,
          logSessionLoop_in_only, iPackets_map_true, oPackets_map_true]
      | some qs =>
        cases c with
        | true =>
          cases ps with
          | nil =>
            simp only [inSideEvs, outSideEvs, Option.isNone_some,
              List.map_nil, List.nil_append, Option.getD_some]
            rw [mergeEvs_cons_true _ _ _ _ (by simp), mergeEvs_nil_left,
              logSessionLoop_inClosed, logSessionLoop_out_only]
            simp [iPackets_map_false, oPackets_map_false]
          | cons p ps' =>
            obtain ⟨h1, h2, h3⟩ := ih (some ps') (some qs)
            simp only [inSideEvs, outSideEvs, Option.isNone_some,
              Option.getD_some, List.map_cons, List.cons_append] at h1 h2 h3 ⊢
            rw [mergeEvs_cons_true _ _ _ _ (by simp)]
            simp [logSessionLoop, LogLoopOut.push, iPackets_cons,
              oPackets_cons, h1, h2, h3]
        | false =>
          cases qs with
          | nil =>
            simp only [inSideEvs, outSideEvs, Option.isNone_some,
              List.map_nil, List.nil_append, Option.getD_some]
            rw [mergeEvs_cons_false _ _ _ _ (by simp), mergeEvs_nil_right,
              logSessionLoop_outClosed, logSessionLoop_in_only]
            simp [iPackets_map_true, oPackets_map_true]
          | cons q qs' =>
            obtain ⟨h1, h2, h3⟩ := ih (some ps) (some qs')
            simp only [inSideEvs, outSideEvs, Option.isNone_some,
              Option.getD_some, List.map_cons, List.cons_append] at h1 h2 h3 ⊢
            rw [mergeEvs_cons_false _ _ _ _ (by simp)]
            simp [logSessionLoop, LogLoopOut.push, iPackets_cons,
              oPackets_cons, h1, h2, h3]

/-- C6 (amended): for every session with logging enabled and every
interleaving of the two sinks, concatenating the payloads of the
`i`-tagged `logPacket` calls yields exactly the bytes of the inbound
connection's error-free reads, and likewise for `o` and the
connect-back connection — exact, provided no read returned bytes
together with an error (such bytes are counted as read but dropped). -/
theorem replay_payload_roundtrip (inSteps outSteps : List ReadStep)
    (sch : List Bool) (bufIn bufOut : List Nat) (rIn rOut : ProxyOut)
    (h1 : rIn = proxyBytes ConnH.inb ConnH.outb true bufIn inSteps)
    (h2 : rOut = proxyBytes ConnH.outb ConnH.inb true bufOut outSteps)
    (hIn : ∀ r ∈ inSteps, r.err ≠ none → r.chunk = [])
    (hOut : ∀ r ∈ outSteps, r.err ≠ none → r.chunk = []) :
    concatAll ((iPackets ((logSessionLoop false false
        (mergeEvs sch (inEvents rIn) (outEvents rOut))).calls)).map
        Packet.payload) = rIn.allReadData ∧
    concatAll ((oPackets ((logSessionLoop false false
        (mergeEvs sch (inEvents rIn) (outEvents rOut))).calls)).map
        Packet.payload) = rOut.allReadData := by
  obtain ⟨hi, ho, -⟩ := merged_calls sch (some rIn.sent) (some rOut.sent)
  simp only [inSideEvs, outSideEvs, Option.isNone_some,
    Option.getD_some] at hi ho
  rw [inEvents, outEvents]
  constructor
  · rw [hi, h1]
    exact proxy_payloads_eq_read_data _ _ _ _ hIn
  · rw [ho, h2]
    exact proxy_payloads_eq_read_data _ _ _ _ hOut

/-- Witness for C6 (amended) at a concrete two-chunk inbound trace and
one-chunk connect-back trace. -/
theorem replay_payload_roundtrip_inst :
    concatAll ((iPackets ((logSessionLoop false false
        (mergeEvs [true, false, true]
          (inEvents (proxyBytes ConnH.inb ConnH.outb true [0, 0]
            [⟨[1, 2], none, [⟨2, none⟩]⟩, ⟨[], some .eof, []⟩]))
          (outEvents (proxyBytes ConnH.outb ConnH.inb true [0, 0]
            [⟨[9], none, [⟨1, none⟩]⟩, ⟨[], some .eof, []⟩])))).calls)).map
        Packet.payload) =
      (proxyBytes ConnH.inb ConnH.outb true [0, 0]
        [⟨[1, 2], none, [⟨2, none⟩]⟩, ⟨[], some .eof, []⟩]).allReadData :=
  (replay_payload_roundtrip
    [⟨[1, 2], none, [⟨2, none⟩]⟩, ⟨[], some .eof, []⟩]
    [⟨[9], none, [⟨1, none⟩]⟩, ⟨[], some .eof, []⟩]
    [true, false, true] [0, 0] [0, 0] _ _ rfl rfl
    (by decide) (by decide)).1

end OneWayMirror
